import Mathlib

/-!
Verification of the koto tree-walking evaluator core against its
specification. The definitions below are shallow embeddings of the Rust
sources (`src/koto/src/runtime.rs` and `src/runtime/src/core/iterator.rs`).
Numbers are `f64` in the source; every claim under study uses them
integrally, so `Number` is modelled by `Int` (the `as isize` / `as usize`
casts become `Int`/`Int.toNat`, which agrees with Rust's saturating casts
for the integral values involved).  Components of the runtime whose sources
are not staged (`value.rs`, `call_stack.rs`, `return_stack.rs`, the
iterator adaptors and `Vm::run_binary_op`) are modelled from the
specification; each such definition is marked in its doc comment.
-/

namespace Koto

/-- Identifiers: interned strings in the source (`Rc<String>`). -/
abbrev Id := String

/-- Binary operators of the AST (`koto_parser::AstOp`), exactly the
variants matched in `Runtime::evaluate` (runtime.rs, Node::Op). -/
inductive AstOp where
  | add
  | subtract
  | multiply
  | divide
  | modulo
  | less
  | lessOrEqual
  | greater
  | greaterOrEqual
  | equal
  | notEqual
  | and
  | or
deriving DecidableEq

/-- Runtime values (`Value` in the source).  `number` carries `Int` (see the
file comment), `vec4` carries four components, `map` is the entry list of the
source's `HashMap` (keys unique), `range` is the half-open interval.
`function` keeps the declared argument names; its body is never inspected by
any operation embedded here, so it is not modelled.  `tuple` is the newer
runtime's tuple value (produced by `collect_pair`). -/
inductive Value where
  | empty
  | bool (b : Bool)
  | number (n : Int)
  | vec4 (a b c d : Int)
  | str (s : String)
  | list (elements : List Value)
  | range (rmin rmax : Int)
  | map (entries : List (Id × Value))
  | function (args : List Id)
  | tuple (elements : List Value)

mutual

/-- Structural equality of values (`PartialEq` on the source's `Value`; the
spec's §3.1 identity invariant).  Functions are compared by their argument
lists here since bodies are not modelled; no claim under study compares
functions.  Maps are compared as entry lists. -/
def valueBeq : Value → Value → Bool
  | .empty, .empty => true
  | .bool a, .bool b => a == b
  | .number a, .number b => a == b
  | .vec4 a b c d, .vec4 a2 b2 c2 d2 => a == a2 && b == b2 && c == c2 && d == d2
  | .str a, .str b => a == b
  | .list a, .list b => valueListBeq a b
  | .range a b, .range a2 b2 => a == a2 && b == b2
  | .map a, .map b => entriesBeq a b
  | .function a, .function b => a == b
  | .tuple a, .tuple b => valueListBeq a b
  | _, _ => false

/-- Elementwise equality of value lists. -/
def valueListBeq : List Value → List Value → Bool
  | [], [] => true
  | a :: as2, b :: bs => valueBeq a b && valueListBeq as2 bs
  | _, _ => false

/-- Elementwise equality of map entry lists. -/
def entriesBeq : List (Id × Value) → List (Id × Value) → Bool
  | [], [] => true
  | (k, v) :: as2, (k2, v2) :: bs => k == k2 && valueBeq v v2 && entriesBeq as2 bs
  | _, _ => false

end

namespace Value

/-- Whether a value is a `Number`. -/
def isNumber : Value → Bool
  | .number _ => true
  | _ => false

/-- Whether a value is a `Vec4`. -/
def isVec4 : Value → Bool
  | .vec4 .. => true
  | _ => false

/-- Whether a value is a `Bool`. -/
def isBool : Value → Bool
  | .bool _ => true
  | _ => false

/-- Whether a value is a `List`. -/
def isList : Value → Bool
  | .list _ => true
  | _ => false

/-- Whether a value is a `Map`. -/
def isMap : Value → Bool
  | .map _ => true
  | _ => false

end Value

/-- Modelled from the spec: `type_name` (§3.1 lists the value variants;
`value.rs` is not among the staged sources). -/
def typeName : Value → String
  | .empty => "Empty"
  | .bool _ => "Bool"
  | .number _ => "Number"
  | .vec4 .. => "Vec4"
  | .str _ => "Str"
  | .list _ => "List"
  | .range .. => "Range"
  | .map _ => "Map"
  | .function _ => "Function"
  | .tuple _ => "Tuple"

mutual

/-- Modelled from the spec: `to_string` / `Display` for values (§3.1 requires
a total value-to-string conversion; `value.rs` is not among the staged
sources).  Scalars display as their contents, containers by listing their
elements; no variant prints its type name. -/
def display : Value → String
  | .empty => "()"
  | .bool b => toString b
  | .number n => toString n
  | .vec4 a b c d =>
      "(" ++ toString a ++ ", " ++ toString b ++ ", " ++ toString c ++ ", "
        ++ toString d ++ ")"
  | .str s => s
  | .list l => "[" ++ displayList l ++ "]"
  | .range rmin rmax => toString rmin ++ ".." ++ toString rmax
  | .map entries => "\x7b" ++ displayEntries entries ++ "\x7d"
  | .function args => "function (" ++ String.intercalate ", " args ++ ")"
  | .tuple l => "(" ++ displayList l ++ ")"

/-- Comma-separated display of a list of values. -/
def displayList : List Value → String
  | [] => ""
  | [v] => display v
  | v :: rest => display v ++ ", " ++ displayList rest

/-- Comma-separated display of map entries. -/
def displayEntries : List (Id × Value) → String
  | [] => ""
  | [(k, v)] => k ++ ": " ++ display v
  | (k, v) :: rest => k ++ ": " ++ display v ++ ", " ++ displayEntries rest

end

/-- Evaluation of `Node::Range` (runtime.rs, `Runtime::evaluate`, lines
365-402), applied to the already-evaluated bound values: both bounds must be
`Number`s, an inclusive range adds 1 to `max`, and `min ≤ max` is enforced
with a runtime error otherwise.  Errors are modelled by their message. -/
def evaluateRange (minValue maxValue : Value) (inclusive : Bool) :
    Except String Value :=
  match minValue, maxValue with
  | .number mn, .number mx =>
      let mx := if inclusive then mx + 1 else mx
      if mn ≤ mx then
        .ok (.range mn mx)
      else
        .error ("Invalid range, min should be less than or equal to max - min: "
          ++ toString mn ++ ", max: " ++ toString mx)
  | a, b =>
      .error ("Expected numbers for range bounds, found min: " ++ display a
        ++ ", max: " ++ display b)

/-- The positional destructuring of `Node::MultiAssign` with a single
right-hand `List` (runtime.rs lines 455-462): each id takes the next list
element, ids beyond the list take `Empty` (`result_iter.next().unwrap_or(&Empty)`). -/
def assignList : List Id → List Value → List (Id × Value)
  | [], _ => []
  | id :: ids, [] => (id, Value.empty) :: assignList ids []
  | id :: ids, v :: vs => (id, v) :: assignList ids vs

/-- The bindings performed by `Node::MultiAssign` with a single right-hand
expression (runtime.rs lines 450-470), applied to the captured value: a
`List` is destructured positionally with `Empty` padding, any other value is
bound to the first id with every remaining id bound to `Empty`.  The
function is total: no error is raised on a value shortfall. -/
def multiAssignSingle (ids : List Id) (value : Value) : List (Id × Value) :=
  match value with
  | .list l => assignList ids l
  | _ =>
      match ids with
      | [] => []
      | id0 :: rest => (id0, value) :: rest.map (fun id => (id, Value.empty))

/-- The name Rust's `{:?}` (Debug) prints for each `AstOp` variant, as used
by the binary-operation error message in runtime.rs. -/
def opName : AstOp → String
  | .add => "Add"
  | .subtract => "Subtract"
  | .multiply => "Multiply"
  | .divide => "Divide"
  | .modulo => "Modulo"
  | .less => "Less"
  | .lessOrEqual => "LessOrEqual"
  | .greater => "Greater"
  | .greaterOrEqual => "GreaterOrEqual"
  | .equal => "Equal"
  | .notEqual => "NotEqual"
  | .and => "And"
  | .or => "Or"

/-- The message of `binary_op_error!` (runtime.rs lines 507-517): the format
string names the operator (Debug) and displays the two operand values. -/
def binaryOpErrorMsg (op : AstOp) (a b : Value) : String :=
  "Unable to perform operation " ++ opName op ++ " with lhs: '" ++ display a
    ++ "' and rhs: '" ++ display b ++ "'"

/-- Insertion into a map's entry list with `HashMap` semantics: a present key
is overwritten, an absent one appended. -/
def mapInsert (entries : List (Id × Value)) (key : Id) (v : Value) :
    List (Id × Value) :=
  if entries.any (fun p => p.1 == key) then
    entries.map (fun p => if p.1 == key then (key, v) else p)
  else
    entries ++ [(key, v)]

/-- `HashMap::clone(a)` extended with `b`'s entries (runtime.rs lines
572-579): a right-biased merge into a fresh map. -/
def mapExtend (a b : List (Id × Value)) : List (Id × Value) :=
  b.foldl (fun acc p => mapInsert acc p.1 p.2) a

/-- Evaluation of `Node::Op` (runtime.rs lines 498-585), applied to the
already-evaluated operand values: `==`/`!=` are defined on all pairs, the
other operators by the match on operand kinds copied from the source; every
combination the match does not list falls to `binary_op_error!`. -/
def evalOp (op : AstOp) (a b : Value) : Except String Value :=
  match op with
  | .equal => .ok (.bool (valueBeq a b))
  | .notEqual => .ok (.bool (!valueBeq a b))
  | _ =>
    match a, b with
    | .number x, .number y =>
        match op with
        | .add => .ok (.number (x + y))
        | .subtract => .ok (.number (x - y))
        | .multiply => .ok (.number (x * y))
        | .divide => .ok (.number (x / y))
        | .modulo => .ok (.number (x % y))
        | .less => .ok (.bool (decide (x < y)))
        | .lessOrEqual => .ok (.bool (decide (x ≤ y)))
        | .greater => .ok (.bool (decide (x > y)))
        | .greaterOrEqual => .ok (.bool (decide (x ≥ y)))
        | _ => .error (binaryOpErrorMsg op a b)
    | .vec4 x1 x2 x3 x4, .vec4 y1 y2 y3 y4 =>
        match op with
        | .add => .ok (.vec4 (x1 + y1) (x2 + y2) (x3 + y3) (x4 + y4))
        | .subtract => .ok (.vec4 (x1 - y1) (x2 - y2) (x3 - y3) (x4 - y4))
        | .multiply => .ok (.vec4 (x1 * y1) (x2 * y2) (x3 * y3) (x4 * y4))
        | .divide => .ok (.vec4 (x1 / y1) (x2 / y2) (x3 / y3) (x4 / y4))
        | .modulo => .ok (.vec4 (x1 % y1) (x2 % y2) (x3 % y3) (x4 % y4))
        | _ => .error (binaryOpErrorMsg op a b)
    | .number x, .vec4 y1 y2 y3 y4 =>
        match op with
        | .add => .ok (.vec4 (x + y1) (x + y2) (x + y3) (x + y4))
        | .subtract => .ok (.vec4 (x - y1) (x - y2) (x - y3) (x - y4))
        | .multiply => .ok (.vec4 (x * y1) (x * y2) (x * y3) (x * y4))
        | .divide => .ok (.vec4 (x / y1) (x / y2) (x / y3) (x / y4))
        | .modulo => .ok (.vec4 (x % y1) (x % y2) (x % y3) (x % y4))
        | _ => .error (binaryOpErrorMsg op a b)
    | .vec4 x1 x2 x3 x4, .number y =>
        match op with
        | .add => .ok (.vec4 (x1 + y) (x2 + y) (x3 + y) (x4 + y))
        | .subtract => .ok (.vec4 (x1 - y) (x2 - y) (x3 - y) (x4 - y))
        | .multiply => .ok (.vec4 (x1 * y) (x2 * y) (x3 * y) (x4 * y))
        | .divide => .ok (.vec4 (x1 / y) (x2 / y) (x3 / y) (x4 / y))
        | .modulo => .ok (.vec4 (x1 % y) (x2 % y) (x3 % y) (x4 % y))
        | _ => .error (binaryOpErrorMsg op a b)
    | .bool x, .bool y =>
        match op with
        | .and => .ok (.bool (x && y))
        | .or => .ok (.bool (x || y))
        | _ => .error (binaryOpErrorMsg op a b)
    | .list x, .list y =>
        match op with
        | .add => .ok (.list (x ++ y))
        | _ => .error (binaryOpErrorMsg op a b)
    | .map x, .map y =>
        match op with
        | .add => .ok (.map (mapExtend x y))
        | _ => .error (binaryOpErrorMsg op a b)
    | _, _ => .error (binaryOpErrorMsg op a b)

/-- Whether `op` is one of the arithmetic operators `{+,-,*,/,%}`. -/
def isArithOp : AstOp → Bool
  | .add | .subtract | .multiply | .divide | .modulo => true
  | _ => false

/-- Whether `op` is one of the comparison operators `{<,≤,>,≥}`. -/
def isCmpOp : AstOp → Bool
  | .less | .lessOrEqual | .greater | .greaterOrEqual => true
  | _ => false

/-- Whether `op` is `and` or `or`. -/
def isLogicOp : AstOp → Bool
  | .and | .or => true
  | _ => false

/-- The eleven operators the claim about undefined operand combinations
ranges over: `{+,-,*,/,%,<,≤,>,≥,and,or}`. -/
def claimOps : List AstOp :=
  [.add, .subtract, .multiply, .divide, .modulo,
   .less, .lessOrEqual, .greater, .greaterOrEqual, .and, .or]

/-- Definition following the spec's words (§4.1), to be compared against the
source-derived `evalOp`: arithmetic is defined on `Number ⊗ Number`,
`Vec4 ⊗ Vec4`, the two scalar-broadcast pairs, plus `List + List` and
`Map + Map`; comparisons only on `Number ⊗ Number`; `and`/`or` only on
`Bool ⊗ Bool`. -/
def specDefinedCombo (op : AstOp) (a b : Value) : Bool :=
  (isArithOp op
      && ((a.isNumber && b.isNumber) || (a.isVec4 && b.isVec4)
        || (a.isNumber && b.isVec4) || (a.isVec4 && b.isNumber)))
    || (op == .add && a.isList && b.isList)
    || (op == .add && a.isMap && b.isMap)
    || (isCmpOp op && a.isNumber && b.isNumber)
    || (isLogicOp op && a.isBool && b.isBool)

/-- `Runtime::list_index` (runtime.rs lines 775-843), applied to the resolved
receiver value and the already-evaluated index value.  A `Number` index is
cast `as usize` (saturating at 0, hence `Int.toNat`) and bounds-checked; a
`Range` index is rejected when a bound is negative or `≥ len`, and otherwise
yields a new `List` holding `elements[umin..umax]`; non-number/range indices
and non-list receivers are rejected.  `id` only feeds the error messages. -/
def listIndex (id : Id) (maybeList : Value) (index : Value) :
    Except String Value :=
  match maybeList with
  | .list elements =>
    match index with
    | .number i =>
        let u := i.toNat
        if h : u < elements.length then
          .ok (elements.get ⟨u, h⟩)
        else
          .error ("Index out of bounds: '" ++ id ++ "' has a length of "
            ++ toString elements.length ++ " but the index is " ++ toString u)
    | .range rmin rmax =>
        if rmin < 0 ∨ rmax < 0 then
          .error ("Indexing with negative indices isn't supported, min: "
            ++ toString rmin ++ ", max: " ++ toString rmax)
        else if elements.length ≤ rmin.toNat ∨ elements.length ≤ rmax.toNat then
          .error ("Index out of bounds: '" ++ id ++ "' has a length of "
            ++ toString elements.length ++ " - min: " ++ toString rmin
            ++ ", max: " ++ toString rmax)
        else
          .ok (.list ((elements.drop rmin.toNat).take (rmax.toNat - rmin.toNat)))
    | other =>
        .error ("Indexing is only supported with number values or ranges, found "
          ++ display other)
  | other =>
      .error ("Indexing is only supported for Lists, found " ++ display other)

/-- The final-value selection of `Runtime::run` (runtime.rs lines 188-195):
the values of the final return-stack frame collapse to `Empty`, the single
value, or a fresh `List` of all of them in frame order. -/
def runResult (values : List Value) : Value :=
  match values with
  | [] => .empty
  | [single] => single
  | vs => .list vs

/-! The iterator core (`src/runtime/src/core/iterator.rs`).  An iterator is
modelled by the list of outputs it produces; an adaptor or terminal then
becomes a function on output lists. -/

/-- `ValueIteratorOutput` of the newer runtime: a value, a pair (from
`enumerate`-like sources), or a non-aborting error. -/
inductive IterOutput where
  | value (v : Value)
  | valuePair (a b : Value)
  | error (e : String)

/-- `collect_pair` (iterator.rs lines 816-821): a `ValuePair` collapses to a
`Tuple` of the two values, everything else passes through. -/
def collectPair (o : IterOutput) : IterOutput :=
  match o with
  | .valuePair a b => .value (.tuple [a, b])
  | other => other

/-- `compare_values` (iterator.rs lines 901-916), with the vm's
`run_binary_op(BinaryOp::Less, a, b)` abstracted as the function `less`:
comparison `true` keeps `a` for min (`InvertResult::No`, here
`invert = false`) and `b` for max; `false` keeps the other one; a non-`Bool`
comparison result is an error. -/
def compareValues (less : Value → Value → Except String Value)
    (a b : Value) (invert : Bool) : Except String Value :=
  match less a b with
  | .ok (.bool true) => .ok (if invert then b else a)
  | .ok (.bool false) => .ok (if invert then a else b)
  | .ok other =>
      .error ("Expected Bool from '<' comparison, found '" ++ typeName other ++ "'")
  | .error e => .error e

/-- The accumulation loop of `run_iterator_comparison` (iterator.rs lines
844-867): outputs pass through `collect_pair`; the first value seeds the
accumulator, each further value is compared against it; an error output
aborts; the source's `unreachable!()` (a pair after `collect_pair`) is
modelled as an error.  On exhaustion the accumulator is returned,
`Value::default()` (`Empty`, per the spec's empty-input clause) when no
value was seen. -/
def comparisonLoop (less : Value → Value → Except String Value)
    (invert : Bool) (acc : Option Value) :
    List IterOutput → Except String Value
  | [] => .ok (acc.getD .empty)
  | o :: rest =>
    match collectPair o with
    | .value v =>
      match acc with
      | none => comparisonLoop less invert (some v) rest
      | some r =>
        match compareValues less r v invert with
        | .ok r2 => comparisonLoop less invert (some r2) rest
        | .error e => .error e
    | .error e => .error e
    | .valuePair _ _ => .error "unreachable"

/-- `run_iterator_comparison` (iterator.rs lines 844-867). -/
def runIteratorComparison (less : Value → Value → Except String Value)
    (invert : Bool) (outputs : List IterOutput) : Except String Value :=
  comparisonLoop less invert none outputs

/-- The `iterator.min` terminal (iterator.rs lines 434-451):
`run_iterator_comparison` with `InvertResult::No`. -/
def iterMin (less : Value → Value → Except String Value)
    (outputs : List IterOutput) : Except String Value :=
  runIteratorComparison less false outputs

/-- The `iterator.max` terminal (iterator.rs lines 415-432):
`run_iterator_comparison` with `InvertResult::Yes`. -/
def iterMax (less : Value → Value → Except String Value)
    (outputs : List IterOutput) : Except String Value :=
  runIteratorComparison less true outputs

/-- Modelled from the spec: `Vm::run_binary_op(BinaryOp::Less)` is not among
the staged sources; per §4.1 the comparison `<` is defined only on
`Number ⊗ Number` and any other combination is a type error. -/
def lessNum : Value → Value → Except String Value
  | .number x, .number y => .ok (.bool (decide (x < y)))
  | a, b => .error ("Unable to compare '" ++ typeName a ++ "' and '" ++ typeName b ++ "'")

/-- Modelled from the spec: an iterator over a `List` yields the list's
elements in order (§4.2; `value_iterator.rs` is not among the staged
sources). -/
def listIterOutputs (xs : List Value) : List IterOutput :=
  xs.map .value

/-- Modelled from the spec: the `chain` adaptor fully exhausts the first
iterator before starting the second (§5; `adaptors.rs` is not among the
staged sources), so its output list is the concatenation. -/
def chainOutputs (a b : List IterOutput) : List IterOutput :=
  a ++ b

/-- The collection loop of `iterator.to_list` (iterator.rs lines 651-673):
outputs pass through `collect_pair`, each value is pushed in order, an error
output aborts with that error. -/
def toListLoop : List IterOutput → Except String (List Value)
  | [] => .ok []
  | o :: rest =>
    match collectPair o with
    | .value v => (toListLoop rest).map (fun vs => v :: vs)
    | .error e => .error e
    | .valuePair _ _ => .error "unreachable"

/-- The `iterator.to_list` terminal (iterator.rs lines 651-673): the
collected values wrapped in a new `List`. -/
def toListTerminal (outputs : List IterOutput) : Except String Value :=
  (toListLoop outputs).map .list

/-- Whether `needle` occurs in `hay` as a contiguous substring, decided over
the character lists. -/
def stringContains (hay needle : String) : Bool :=
  hay.toList.tails.any (fun t => needle.toList.isPrefixOf t)

/-! The call stack.  `call_stack.rs` is not among the staged sources; the
structure below is modelled from the spec (§3.2, §4.4): committed frames of
bindings plus a staging buffer that `push` extends, `cancel` discards and
`commit` turns into the new top frame. -/

/-- Modelled from the spec: the call stack (§3.2, §4.4) — committed frames,
newest first, and the staging buffer used while preparing a call. -/
structure CallStack where
  frames : List (List (Id × Value))
  staging : List (Id × Value)

/-- Modelled from the spec: a new binding enters the staging buffer (§4.4). -/
def CallStack.push (s : CallStack) (id : Id) (v : Value) : CallStack :=
  { s with staging := s.staging ++ [(id, v)] }

/-- Modelled from the spec: `cancel` discards the staging buffer (§4.4). -/
def CallStack.cancel (s : CallStack) : CallStack :=
  { s with staging := [] }

/-- Modelled from the spec: on success the staging buffer becomes the new
top frame (§4.4). -/
def CallStack.commit (s : CallStack) : CallStack :=
  { frames := s.staging :: s.frames, staging := [] }

/-- Modelled from the spec: a call frame is a mapping identifier → value
(§3.2), so of several pushes of one identifier the most recent is the
frame's value for it. -/
def frameGet (frame : List (Id × Value)) (id : Id) : Option Value :=
  (frame.reverse.find? (fun p => p.1 == id)).map Prod.snd

/-- `HashMap::get` on a map's entry list (keys unique in a `HashMap`). -/
def mapLookup (entries : List (Id × Value)) (id : Id) : Option Value :=
  (entries.find? (fun p => p.1 == id)).map Prod.snd

/-- The `value_or_map_lookup!` fold of `Runtime::get_value` (runtime.rs lines
657-674): the remaining ids of a lookup chain are resolved through nested
maps; traversal of a non-map yields `None`. -/
def lookupChain (first : Option Value) (rest : List Id) : Option Value :=
  rest.foldl
    (fun acc id =>
      acc.bind fun v =>
        match v with
        | .map entries => mapLookup entries id
        | _ => none)
    first

/-- `Runtime::get_value` (runtime.rs lines 656-685): with a call frame in
scope the chain's first id is resolved there first, then the global scope is
tried.  `callFrame` is the top call frame when `frame() > 0`, `none`
otherwise. -/
def getValue (callFrame : Option (List (Id × Value)))
    (global : List (Id × Value)) (ids : List Id) : Option Value :=
  match ids with
  | [] => none
  | first :: rest =>
    let fromFrame :=
      match callFrame with
      | some fr => lookupChain (frameGet fr first) rest
      | none => none
    match fromFrame with
    | some v => some v
    | none => lookupChain (mapLookup global first) rest

/-- The expected-arity computation of `Runtime::call_function` (runtime.rs
lines 869-875): with a lookup chain longer than one segment and a first
declared argument literally named `self`, one less than the declared count. -/
def expectedArgs (idLen : Nat) (fnArgs : List Id) : Nat :=
  if 1 < idLen ∧ fnArgs.length > 0 ∧ fnArgs.head? = some "self" then
    fnArgs.length - 1
  else
    fnArgs.length

/-- The argument-binding loop of `Runtime::call_function` (runtime.rs lines
906-917) over the declared names zipped with each argument expression's
evaluation outcome: a successful outcome is pushed under the declared name;
a failed one pushes the (immediately discarded) fetched value, cancels the
staging buffer and surfaces the error. -/
def bindArgs : List (Id × Except String Value) → CallStack →
    CallStack × Except String Unit
  | [], s => (s, .ok ())
  | (name, res) :: rest, s =>
    match res with
    | .ok v => bindArgs rest (s.push name v)
    | .error e => (((s.push name .empty).cancel), .error e)

/-- The staging phase of `Runtime::call_function` for a user function
(runtime.rs lines 868-922, up to the commit): the arity check, the
self-reference push of the chain's first id, the implicit-`self` push for a
map function (resolved by `get_value` on the chain without its last
segment; the source's `unwrap` there is modelled by `none`), then the
argument loop `f.args.iter().zip(args.iter())` over the declared names —
including `self` when present — and finally `commit` on success.  Argument
expressions appear as their evaluation outcomes. -/
def callFunctionStaged (global : List (Id × Value)) (s : CallStack)
    (ids fnArgs : List Id) (argResults : List (Except String Value)) :
    Option (CallStack × Except String Unit) :=
  match ids with
  | [] => none
  | first :: _ =>
    if argResults.length ≠ expectedArgs ids.length fnArgs then
      some (s, .error ("Incorrect argument count while calling '"
        ++ String.intercalate "." ids ++ "'"))
    else
      let s1 := s.push first (.function fnArgs)
      let s2 :=
        if 1 < ids.length then
          match fnArgs.head? with
          | some selfArg =>
            if selfArg = "self" then
              match getValue s1.frames.head? global ids.dropLast with
              | some m => some (s1.push selfArg m)
              | none => none
            else
              some s1
          | none => some s1
        else
          some s1
      match s2 with
      | none => none
      | some s2 =>
        match bindArgs (fnArgs.zip argResults) s2 with
        | (s3, .ok ()) => some (s3.commit, .ok ())
        | (s3, .error e) => some (s3, .error e)

/-! Theorems. -/

/-- Evaluation of a range node over two numbers, closed form. -/
theorem evaluateRange_number_number (mn mx : Int) (inc : Bool) :
    evaluateRange (.number mn) (.number mx) inc =
      if mn ≤ (if inc then mx + 1 else mx) then
        .ok (.range mn (if inc then mx + 1 else mx))
      else
        .error ("Invalid range, min should be less than or equal to max - min: "
          ++ toString mn ++ ", max: " ++ toString (if inc then mx + 1 else mx)) := rfl

/-- C10: for a successful program, Runtime::run returns Empty when the final
return-stack frame holds zero values, the single value itself when it holds
exactly one, and a List of all the values in frame order when it holds two
or more. -/
theorem runResult_spec :
    runResult [] = Value.empty
      ∧ (∀ v : Value, runResult [v] = v)
      ∧ (∀ (a b : Value) (t : List Value), runResult (a :: b :: t) = .list (a :: b :: t)) :=
  ⟨rfl, fun _ => rfl, fun _ _ _ => rfl⟩

/-- Every successful range-node evaluation yields a valid Range. -/
theorem evaluateRange_ok (a b : Value) (inc : Bool) (v : Value)
    (h : evaluateRange a b inc = .ok v) :
    ∃ mn mx, v = .range mn mx ∧ mn ≤ mx := by
  cases a <;> cases b
  case number.number mn mx =>
    rw [evaluateRange_number_number] at h
    split at h
    all_goals split at h
    all_goals
      first
        | (rename_i hle; exact ⟨_, _, (Except.ok.inj h).symm, hle⟩)
        | exact absurd h (by simp)
  all_goals exact absurd h (by simp [evaluateRange])

/-- C3: every Range value produced by evaluating a Range node satisfies
min ≤ max; both bounds must be Numbers, an inclusive range normalizes max
to max + 1, and a normalized min exceeding the normalized max is a runtime
error with no Range produced. -/
theorem evaluateRange_spec :
    (∀ (a b : Value) (inc : Bool) (mn mx : Int),
        evaluateRange a b inc = .ok (.range mn mx) → mn ≤ mx)
      ∧ (∀ (a b : Value) (inc : Bool) (v : Value),
          evaluateRange a b inc = .ok v → ∃ mn mx, v = .range mn mx)
      ∧ (∀ (mn mx : Int) (inc : Bool),
          (mn ≤ (if inc then mx + 1 else mx) →
            evaluateRange (.number mn) (.number mx) inc
              = .ok (.range mn (if inc then mx + 1 else mx)))
          ∧ ((if inc then mx + 1 else mx) < mn →
              ∃ msg, evaluateRange (.number mn) (.number mx) inc = .error msg))
      ∧ (∀ (a b : Value) (inc : Bool), (a.isNumber = false ∨ b.isNumber = false) →
          ∃ msg, evaluateRange a b inc = .error msg) := by
  refine ⟨?_, ?_, ?_, ?_⟩
  · intro a b inc mn mx h
    obtain ⟨mn2, mx2, hv, hle⟩ := evaluateRange_ok a b inc _ h
    obtain ⟨h1, h2⟩ := Value.range.inj hv
    omega
  · intro a b inc v h
    obtain ⟨mn, mx, hv, _⟩ := evaluateRange_ok a b inc v h
    exact ⟨mn, mx, hv⟩
  · intro mn mx inc
    constructor
    · intro hle
      rw [evaluateRange_number_number, if_pos hle]
    · intro hlt
      rw [evaluateRange_number_number, if_neg (by omega)]
      exact ⟨_, rfl⟩
  · intro a b inc h
    cases a <;> cases b <;> simp [Value.isNumber] at h <;>
      exact ⟨_, rfl⟩

/-- Length of the positional list destructuring: one binding per id. -/
theorem assignList_length (ids : List Id) (l : List Value) :
    (assignList ids l).length = ids.length := by
  induction ids generalizing l with
  | nil => cases l <;> rfl
  | cons id ids ih => cases l <;> simp [assignList, ih]

/-- The k-th binding of the positional list destructuring: the k-th id,
paired with the k-th list element or Empty past the end. -/
theorem assignList_get (ids : List Id) (l : List Value) (k : Nat)
    (hk : k < ids.length) :
    (assignList ids l)[k]? = some (ids[k], l.getD k .empty) := by
  induction ids generalizing l k with
  | nil => exact absurd hk (by simp)
  | cons id ids ih =>
    cases l with
    | nil =>
      cases k with
      | zero => simp [assignList]
      | succ k => simpa [assignList] using ih [] k (by simpa using hk)
    | cons v vs =>
      cases k with
      | zero => simp [assignList]
      | succ k => simpa [assignList] using ih vs k (by simpa using hk)

/-- C5: MultiAssign with a single right-hand expression destructures a List
positionally (ids past the list length get Empty) and binds any non-list
value to the first id with Empty for every remaining id, raising no error. -/
theorem multiAssign_spec :
    (∀ (ids : List Id) (l : List Value),
        (multiAssignSingle ids (.list l)).length = ids.length
        ∧ ∀ (k : Nat) (hk : k < ids.length),
            (multiAssignSingle ids (.list l))[k]? = some (ids[k], l.getD k .empty))
      ∧ (∀ (ids : List Id) (v : Value), v.isList = false →
          ∀ (id0 : Id) (rest : List Id), ids = id0 :: rest →
            multiAssignSingle ids v = (id0, v) :: rest.map (fun id => (id, Value.empty))) := by
  constructor
  · intro ids l
    exact ⟨assignList_length ids l, fun k hk => assignList_get ids l k hk⟩
  · intro ids v hv id0 rest hids
    subst hids
    cases v <;> simp_all [multiAssignSingle, Value.isList]

/-- Instance of the MultiAssign rules: a scalar right-hand side goes to the
first id with Empty elsewhere; a two-element list destructures positionally. -/
theorem multiAssign_witness :
    multiAssignSingle ["a", "b"] (.number 7) = [("a", .number 7), ("b", .empty)]
      ∧ (multiAssignSingle ["x", "y", "z"] (.list [.number 1, .number 2])).length = 3 :=
  ⟨multiAssign_spec.2 ["a", "b"] (.number 7) rfl "a" ["b"] rfl,
   (multiAssign_spec.1 ["x", "y", "z"] [.number 1, .number 2]).1⟩

/-- C6: indexing a list of length n with a Number i returns the i-th element
when 0 ≤ i < n and fails with a runtime error when i ≥ n. -/
theorem listIndex_number_spec :
    ∀ (id : Id) (elements : List Value) (i : Int),
      (0 ≤ i → ∀ (h : i.toNat < elements.length),
          listIndex id (.list elements) (.number i) = .ok (elements.get ⟨i.toNat, h⟩))
      ∧ ((elements.length : Int) ≤ i →
          ∃ msg, listIndex id (.list elements) (.number i) = .error msg) := by
  intro id elements i
  constructor
  · intro _ h
    simp only [listIndex]
    rw [dif_pos h]
  · intro hlen
    have h : ¬ i.toNat < elements.length := by omega
    simp only [listIndex]
    rw [dif_neg h]
    exact ⟨_, rfl⟩

/-- Instance of the Number-index rules, including the spec's scenario E7:
indexing [10, 20] with 5 is an error. -/
theorem listIndex_number_witness :
    listIndex "x" (.list [.number 10, .number 20]) (.number 1) = .ok (.number 20)
      ∧ ∃ msg, listIndex "x" (.list [.number 10, .number 20]) (.number 5) = .error msg :=
  ⟨(listIndex_number_spec "x" [.number 10, .number 20] 1).1 (by decide) (by decide),
   (listIndex_number_spec "x" [.number 10, .number 20] 5).2 (by decide)⟩

/-- C1: indexing a list with a Range whose bounds are non-negative and lie
within the list succeeds with a new List holding the half-open slice
elements[min..max); a negative or out-of-range bound is rejected with an
error.  The hypothesis min ≤ max restates the Range validity invariant
(every evaluated Range satisfies it). -/
theorem listIndex_range_spec :
    ∀ (id : Id) (elements : List Value) (mn mx : Int),
      (0 ≤ mn → 0 ≤ mx → mn ≤ mx →
        mn.toNat < elements.length → mx.toNat < elements.length →
          listIndex id (.list elements) (.range mn mx)
            = .ok (.list ((elements.drop mn.toNat).take (mx.toNat - mn.toNat))))
      ∧ ((mn < 0 ∨ mx < 0 ∨ elements.length ≤ mn.toNat ∨ elements.length ≤ mx.toNat) →
          ∃ msg, listIndex id (.list elements) (.range mn mx) = .error msg) := by
  intro id elements mn mx
  constructor
  · intro h1 h2 _ h4 h5
    simp only [listIndex]
    rw [if_neg (by omega), if_neg (by omega)]
  · intro h
    by_cases hneg : mn < 0 ∨ mx < 0
    · simp only [listIndex]
      rw [if_pos hneg]
      exact ⟨_, rfl⟩
    · have hout : elements.length ≤ mn.toNat ∨ elements.length ≤ mx.toNat := by
        rcases h with h | h | h | h
        · exact absurd (Or.inl h) hneg
        · exact absurd (Or.inr h) hneg
        · exact Or.inl h
        · exact Or.inr h
      simp only [listIndex]
      rw [if_neg hneg, if_pos hout]
      exact ⟨_, rfl⟩

/-- Instance of the Range-index rules: an in-bounds range slices, a negative
bound errors. -/
theorem listIndex_range_witness :
    listIndex "a" (.list [.number 10, .number 20, .number 30]) (.range 1 2)
        = .ok (.list [.number 20])
      ∧ ∃ msg, listIndex "a" (.list [.number 10, .number 20]) (.range (-1) 1)
          = .error msg :=
  ⟨(listIndex_range_spec "a" [.number 10, .number 20, .number 30] 1 2).1
      (by decide) (by decide) (by decide) (by decide) (by decide),
   (listIndex_range_spec "a" [.number 10, .number 20] (-1) 1).2
      (Or.inl (by decide))⟩

/-- Instance of the Range-node rules: the spec's inclusive range 1..=5
normalizes to the half-open 1..6, and a reversed range is an error. -/
theorem evaluateRange_witness :
    evaluateRange (.number 1) (.number 5) true = .ok (.range 1 6)
      ∧ ∃ msg, evaluateRange (.number 5) (.number 1) false = .error msg :=
  ⟨(evaluateRange_spec.2.2.1 1 5 true).1 (by norm_num),
   (evaluateRange_spec.2.2.1 5 1 false).2 (by norm_num)⟩

/-- Stepping the comparison accumulation loop over a plain value output. -/
theorem comparisonLoop_none_value (less : Value → Value → Except String Value)
    (invert : Bool) (v : Value) (rest : List IterOutput) :
    comparisonLoop less invert none (.value v :: rest)
      = comparisonLoop less invert (some v) rest := rfl

/-- On numbers, the source comparison step for min computes the binary
minimum: comparison true keeps the accumulator, false takes the newer
value. -/
theorem compareValues_lessNum_min (r v : Int) :
    compareValues lessNum (.number r) (.number v) false = .ok (.number (min r v)) := by
  by_cases h : r < v
  · simp [compareValues, lessNum, h, min_eq_left h.le]
  · simp [compareValues, lessNum, h, min_eq_right (not_lt.mp h)]

/-- On numbers, the source comparison step for max computes the binary
maximum. -/
theorem compareValues_lessNum_max (r v : Int) :
    compareValues lessNum (.number r) (.number v) true = .ok (.number (max r v)) := by
  by_cases h : r < v
  · simp [compareValues, lessNum, h, max_eq_right h.le]
  · simp [compareValues, lessNum, h, max_eq_left (not_lt.mp h)]

/-- The accumulation loop over number outputs folds the binary minimum. -/
theorem comparisonLoop_lessNum_min (ns : List Int) : ∀ (r : Int),
    comparisonLoop lessNum false (some (.number r))
        (ns.map fun m => .value (.number m))
      = .ok (.number (ns.foldl min r)) := by
  induction ns with
  | nil => intro r; rfl
  | cons m ms ih =>
    intro r
    rw [List.map_cons, List.foldl_cons]
    show (match compareValues lessNum (.number r) (.number m) false with
      | .ok r2 => comparisonLoop lessNum false (some r2)
          (ms.map fun m => .value (.number m))
      | .error e => .error e) = _
    rw [compareValues_lessNum_min]
    exact ih (min r m)

/-- The accumulation loop over number outputs folds the binary maximum. -/
theorem comparisonLoop_lessNum_max (ns : List Int) : ∀ (r : Int),
    comparisonLoop lessNum true (some (.number r))
        (ns.map fun m => .value (.number m))
      = .ok (.number (ns.foldl max r)) := by
  induction ns with
  | nil => intro r; rfl
  | cons m ms ih =>
    intro r
    rw [List.map_cons, List.foldl_cons]
    show (match compareValues lessNum (.number r) (.number m) true with
      | .ok r2 => comparisonLoop lessNum true (some r2)
          (ms.map fun m => .value (.number m))
      | .error e => .error e) = _
    rw [compareValues_lessNum_max]
    exact ih (max r m)

/-- iterator.min over a non-empty run of numbers is their left fold by
binary minimum. -/
theorem iterMin_nums (n : Int) (ns : List Int) :
    iterMin lessNum (.value (.number n) :: ns.map (fun m => .value (.number m)))
      = .ok (.number (ns.foldl min n)) := by
  show comparisonLoop lessNum false none _ = _
  rw [comparisonLoop_none_value]
  exact comparisonLoop_lessNum_min ns n

/-- iterator.max over a non-empty run of numbers is their left fold by
binary maximum. -/
theorem iterMax_nums (n : Int) (ns : List Int) :
    iterMax lessNum (.value (.number n) :: ns.map (fun m => .value (.number m)))
      = .ok (.number (ns.foldl max n)) := by
  show comparisonLoop lessNum true none _ = _
  rw [comparisonLoop_none_value]
  exact comparisonLoop_lessNum_max ns n

/-- C2: iterator.min and iterator.max drive the vm's `<` over the running
result and each next element; under the spec's numeric `<`, on a tie the
earlier element wins (the two tied numbers are equal), min and max of a run
of numbers are the expected folds, and on empty input both return Empty. -/
theorem iterMinMax_spec :
    (iterMin lessNum [] = .ok .empty ∧ iterMax lessNum [] = .ok .empty)
      ∧ (∀ x y : Int, ¬ x < y → ¬ y < x →
          iterMin lessNum [.value (.number x), .value (.number y)] = .ok (.number x)
          ∧ iterMax lessNum [.value (.number x), .value (.number y)] = .ok (.number x))
      ∧ (∀ (n : Int) (ns : List Int),
          iterMin lessNum (.value (.number n) :: ns.map (fun m => .value (.number m)))
              = .ok (.number (ns.foldl min n))
          ∧ iterMax lessNum (.value (.number n) :: ns.map (fun m => .value (.number m)))
              = .ok (.number (ns.foldl max n))) := by
  refine ⟨⟨rfl, rfl⟩, ?_, fun n ns => ⟨iterMin_nums n ns, iterMax_nums n ns⟩⟩
  intro x y h1 h2
  have hxy : x = y := le_antisymm (not_lt.mp h2) (not_lt.mp h1)
  subst hxy
  have hmin := iterMin_nums x [x]
  have hmax := iterMax_nums x [x]
  simp only [List.map_cons, List.map_nil, List.foldl_cons, List.foldl_nil,
    min_self, max_self] at hmin hmax
  exact ⟨hmin, hmax⟩

/-- Instance of the min/max tie rule at two equal numbers. -/
theorem iterMinMax_witness :
    iterMin lessNum [.value (.number 1), .value (.number 1)] = .ok (.number 1)
      ∧ iterMax lessNum [.value (.number 1), .value (.number 1)] = .ok (.number 1) :=
  iterMinMax_spec.2.1 1 1 (lt_irrefl 1) (lt_irrefl 1)

/-- Collecting a run of plain value outputs yields exactly those values. -/
theorem toListLoop_values (xs : List Value) :
    toListLoop (xs.map .value) = .ok xs := by
  induction xs with
  | nil => rfl
  | cons v vs ih => simp [toListLoop, collectPair, ih, Except.map]

/-- C8: list concatenation by `+` builds a fresh list whose length is the sum
of the operands' lengths (the operands are untouched), and to_list of
chain(a, b) equals a + b. -/
theorem listAdd_chain_spec :
    ∀ (a b : List Value),
      evalOp .add (.list a) (.list b) = .ok (.list (a ++ b))
      ∧ (a ++ b).length = a.length + b.length
      ∧ toListTerminal (chainOutputs (listIterOutputs a) (listIterOutputs b))
          = .ok (.list (a ++ b)) := by
  intro a b
  refine ⟨rfl, List.length_append a b, ?_⟩
  simp [toListTerminal, chainOutputs, listIterOutputs, ← List.map_append,
    toListLoop_values, Except.map]

/-- C9: when an argument's evaluation fails, the argument-binding loop
cancels the staging buffer — all bindings staged so far are discarded, the
committed frames are untouched — and surfaces that error. -/
theorem bindArgs_cancel_spec :
    ∀ (good : List (Id × Value)) (name : Id) (e : String)
      (rest : List (Id × Except String Value)) (s : CallStack),
      bindArgs (good.map (fun p => (p.1, Except.ok p.2)) ++ (name, Except.error e) :: rest) s
        = (⟨s.frames, []⟩, .error e) := by
  intro good name e rest
  induction good with
  | nil => intro s; rfl
  | cons p ps ih =>
    intro s
    rw [List.map_cons, List.cons_append]
    show bindArgs (ps.map (fun p => (p.1, Except.ok p.2)) ++ (name, Except.error e) :: rest)
        (s.push p.1 p.2) = _
    exact ih (s.push p.1 p.2)

/-- C4 (the code at the claim's failing input): for `m.f(99)` with `f`
declared `(self, x)`, the expected arity is declared − 1 as claimed, but the
argument loop zips the provided argument with the declared name `self`, so
the committed call frame binds `self` to the argument value 99 — not to the
map `m` that precedes `f` in the lookup chain — and `x` is never bound. -/
theorem selfBinding_rebound :
    expectedArgs 2 ["self", "x"] = 1
      ∧ callFunctionStaged
            [("m", .map [("v", .number 10), ("f", .function ["self", "x"])])]
            ⟨[], []⟩ ["m", "f"] ["self", "x"] [.ok (.number 99)]
          = some (⟨[[("m", .function ["self", "x"]),
                     ("self", .map [("v", .number 10), ("f", .function ["self", "x"])]),
                     ("self", .number 99)]], []⟩, .ok ())
      ∧ frameGet [("m", .function ["self", "x"]),
                  ("self", .map [("v", .number 10), ("f", .function ["self", "x"])]),
                  ("self", .number 99)] "self" = some (.number 99)
      ∧ Value.number 99 ≠ Value.map [("v", .number 10), ("f", .function ["self", "x"])] := by
  refine ⟨rfl, rfl, rfl, ?_⟩
  intro h
  injection h

/-- C7 (amended): applying one of the eleven operators to an operand pair
outside the combinations the spec defines fails with a runtime error whose
message names the operator and displays the two operand values. -/
theorem undefinedCombo_error :
    ∀ (op : AstOp) (a b : Value), op ∈ claimOps →
      specDefinedCombo op a b = false →
      evalOp op a b = .error (binaryOpErrorMsg op a b) := by
  intro op a b hop hnd
  cases op <;>
    first
      | exact absurd hop (by decide)
      | (cases a <;> cases b <;>
          first
            | rfl
            | simp [specDefinedCombo, isArithOp, isCmpOp, isLogicOp,
                Value.isNumber, Value.isVec4, Value.isBool, Value.isList,
                Value.isMap] at hnd)

/-- Instance of the undefined-combination rule: `<` on a string and a
number errors. -/
theorem undefinedCombo_error_witness :
    evalOp .less (.str "a") (.number 1)
      = .error (binaryOpErrorMsg .less (.str "a") (.number 1)) :=
  undefinedCombo_error .less (.str "a") (.number 1) (by decide) rfl

/-- Counterexample to the claim's kind-naming clause: the error for the
spec's own scenario `1 + "a"` is exactly the message below, and neither
operand's type name (Number, Str) occurs in it — the message names the
operator and the two values only. -/
theorem typeErrorMsg_kinds_cex :
    evalOp .add (.number 1) (.str "a")
        = .error "Unable to perform operation Add with lhs: '1' and rhs: 'a'"
      ∧ stringContains "Unable to perform operation Add with lhs: '1' and rhs: 'a'"
          (typeName (.number 1)) = false
      ∧ stringContains "Unable to perform operation Add with lhs: '1' and rhs: 'a'"
          (typeName (.str "a")) = false := by
  refine ⟨rfl, by decide, by decide⟩

end Koto
